import Mathlib

/-!
Verification of the path data model of `file_path.hpp` (class `FilePath`):
the segment splitter (`split`), the platform parser (`set`), the serializer
(`to_str`), composition (`operator/`) and the navigational derivation
`parent_path`.  Machine-level OS calls (`stat`, `realpath`, ...) are outside
the model; the pure string algorithms are embedded faithfully, with the
undefined behaviour of `std::string::pop_back()` on an empty string and the
external `make_absolute()` step surfaced as `Option.none`.
-/

namespace FilePathSpec

/-- The `Platform` enum of `FilePath`: `UNIX = 0`, `WINDOWS = 1`. -/
inductive Platform where
  | UNIX
  | WINDOWS
deriving DecidableEq, Repr

/-- `NATIVE`: on a `__unix__` build (the build modelled here) `NATIVE = UNIX`. -/
def Platform.NATIVE : Platform := Platform.UNIX

/-- The `FilePath` value: member fields `path_` (the segment vector),
`is_absolute_` and `platform_`, in their declaration order. -/
structure FilePath where
  path_ : List String
  is_absolute_ : Bool
  platform_ : Platform
deriving DecidableEq, Repr

/-- The default constructor `FilePath()`: `platform_(NATIVE)`,
`is_absolute_(false)`, and `path_` default-initialised empty. -/
def FilePath.mkDefault : FilePath :=
  { path_ := [], is_absolute_ := false, platform_ := Platform.NATIVE }

/-- Helper for `std::string::find_first_of(delim, pos)`: scan the suffix,
carrying the absolute index `i` of its head; `none` models `npos`. -/
def findFirstOfAux (delim : List Char) : List Char → Nat → Option Nat
  | [], _ => none
  | c :: cs, i => if c ∈ delim then some i else findFirstOfAux delim cs (i + 1)

/-- `origin.find_first_of(delim, pos)`: index of the first character at
position ≥ `pos` that belongs to `delim`, or `none` (= `npos`). -/
def findFirstOf (origin delim : List Char) (pos : Nat) : Option Nat :=
  findFirstOfAux delim (origin.drop pos) pos

/-- The loop of `FilePath::split`.  State: `last_pos` (a real index; the
assignment `last_pos = npos` immediately exits the loop, so `npos` never
enters an iteration).  One iteration:
`find_pos = find_first_of(delim, last_pos)`; when `find_pos` is `npos` the
guard `find_pos != last_pos` holds, `substr(last_pos, npos - last_pos)`
(the whole remaining suffix) is pushed and the loop breaks; otherwise a
segment `substr(last_pos, find_pos - last_pos)` is pushed unless it would be
empty, and the loop breaks when `last_pos == origin.size() - 1`, else
continues from `find_pos + 1`.  `fuel` bounds the iteration count;
`origin.length + 1` always suffices since `last_pos` strictly increases and
stays below `origin.length`. -/
def splitLoop (origin delim : List Char) : Nat → Nat → List String
  | 0, _ => []
  | fuel + 1, last_pos =>
    match findFirstOf origin delim last_pos with
    | none => [String.mk (origin.drop last_pos)]
    | some find_pos =>
      let seg : List String :=
        if find_pos ≠ last_pos then
          [String.mk ((origin.drop last_pos).take (find_pos - last_pos))]
        else []
      if find_pos = origin.length - 1 then seg
      else seg ++ splitLoop origin delim fuel (find_pos + 1)

/-- `FilePath::split(origin, delim)`. -/
def split (origin : String) (delim : List Char) : List String :=
  splitLoop origin.data delim (origin.data.length + 1) 0

/-- The drive-designator test in `FilePath::set` for `WINDOWS`:
`tmp.size() >= 3 && (u_char)tmp[0] < 0x80 && isalpha(tmp[0]) && tmp[1] == ':'
&& (tmp[2] == '\\' || tmp[2] == '/')`. -/
def hasDriveRoot : List Char → Bool
  | c0 :: c1 :: c2 :: _ =>
    decide (c0.toNat < 0x80) && c0.isAlpha && (c1 == ':') && (c2 == '\\' || c2 == '/')
  | _ => false

/-- The `UNIX` absolute test in `FilePath::set`:
`!path_str.empty() && path_str[0] == '/'`. -/
def firstIsSlash : List Char → Bool
  | c :: _ => c == '/'
  | [] => false

/-- `FilePath::set(path_str, platform)`, the platform parser.  `WINDOWS`:
when the drive-designator test passes, `path_` starts with the two-character
drive prefix, the first three characters are erased and the remainder is
split on `"/\\"`; otherwise the whole string is split on `"/\\"` and the
value is relative.  `UNIX`: split on `"/"`, absolute iff the string starts
with `'/'`. -/
def FilePath.set (path_str : String) (platform : Platform) : FilePath :=
  match platform with
  | Platform.WINDOWS =>
    let tmp := path_str.data
    if hasDriveRoot tmp then
      { path_ := String.mk (tmp.take 2) :: split (String.mk (tmp.drop 3)) ['/', '\\'],
        is_absolute_ := true, platform_ := Platform.WINDOWS }
    else
      { path_ := split path_str ['/', '\\'],
        is_absolute_ := false, platform_ := Platform.WINDOWS }
  | Platform.UNIX =>
      { path_ := split path_str ['/'],
        is_absolute_ := firstIsSlash path_str.data, platform_ := Platform.UNIX }

/-- The separator character `to_str` writes after each segment: `'/'` for
`UNIX`, `'\\'` for `WINDOWS` (the `platform` argument of `to_str`). -/
def sepChar : Platform → Char
  | Platform.UNIX => '/'
  | Platform.WINDOWS => '\\'

/-- The leading text `to_str` writes before the segments:
`if (is_absolute_) { if (platform_ == UNIX) ss << "/"; }` — note it depends
on the value's own `platform_`, not on the requested target platform. -/
def FilePath.absPfx (p : FilePath) : List Char :=
  if p.is_absolute_ then (if p.platform_ = Platform.UNIX then ['/'] else []) else []

/-- `FilePath::to_str(platform)`: the absolute lead-in, then every segment
followed by the target separator, then the unconditional
`result.pop_back()`.  `pop_back()` on an empty `std::string` is undefined
behaviour; that case is modelled as `none`. -/
def FilePath.to_str? (p : FilePath) (platform : Platform) : Option String :=
  let joined : List Char :=
    p.absPfx ++ (p.path_.map (fun seg => seg.data ++ [sepChar platform])).flatten
  if joined = [] then none
  else some (String.mk joined.dropLast)

/-- `FilePath::operator/(other)`: throws when `other` is absolute, then when
the platforms differ; otherwise copies `*this` and appends every segment of
`other.path_`. -/
def FilePath.opDiv (self other : FilePath) : Except String FilePath :=
  if other.is_absolute_ then
    Except.error "FilePath::operator/(): expected a relative path!"
  else if self.platform_ ≠ other.platform_ then
    Except.error "FilePath::operator/(): expected a path of the same type!"
  else
    Except.ok { self with path_ := self.path_ ++ other.path_ }

/-- `FilePath::parent_path()`: pop the last segment when the vector is
non-empty and its back is neither `"."` nor `".."`, otherwise push `".."`.
For an absolute value the result is then passed through `make_absolute()`,
an external OS call (`realpath`); that step is modelled as `none`. -/
def FilePath.parent_path? (p : FilePath) : Option FilePath :=
  let result :=
    if p.path_ ≠ [] ∧ p.path_.getLast? ≠ some "." ∧ p.path_.getLast? ≠ some ".." then
      { p with path_ := p.path_.dropLast }
    else
      { p with path_ := p.path_ ++ [".."] }
  if p.is_absolute_ then none else some result

/-- Joining a list of segments with a single separator character between
consecutive segments — the serialized form the specification describes. -/
def joinWith (sep : Char) : List (List Char) → List Char
  | [] => []
  | [s] => s
  | s :: s2 :: rest => s ++ sep :: joinWith sep (s2 :: rest)

/-! ## Helper lemmas -/

theorem findFirstOf_self_of_mem (origin delim : List Char) (last_pos : Nat)
    (h : last_pos < origin.length) (hmem : origin[last_pos] ∈ delim) :
    findFirstOf origin delim last_pos = some last_pos := by
  unfold findFirstOf
  rw [List.drop_eq_getElem_cons h]
  simp [findFirstOfAux, hmem]

theorem splitLoop_all_sep (origin delim : List Char)
    (hall : ∀ c ∈ origin, c ∈ delim) :
    ∀ fuel last_pos, last_pos < origin.length →
      splitLoop origin delim fuel last_pos = [] := by
  intro fuel
  induction fuel with
  | zero => intro last_pos _; rfl
  | succ n ih =>
    intro last_pos h
    have hmem : origin[last_pos] ∈ delim := hall _ (List.getElem_mem h)
    have hfind : findFirstOf origin delim last_pos = some last_pos :=
      findFirstOf_self_of_mem origin delim last_pos h hmem
    unfold splitLoop
    rw [hfind]
    by_cases hlast : last_pos = origin.length - 1
    · simp [hlast]
    · have hlt : last_pos + 1 < origin.length := by omega
      simp [hlast, ih (last_pos + 1) hlt]

theorem split_eq_nil_of_all_sep (s : String) (delim : List Char)
    (hne : s.data ≠ []) (hall : ∀ c ∈ s.data, c ∈ delim) :
    split s delim = [] := by
  have h0 : 0 < s.data.length := List.length_pos.mpr hne
  exact splitLoop_all_sep s.data delim hall (s.data.length + 1) 0 h0

theorem hasDriveRoot_false_of_sep (cs : List Char)
    (hall : ∀ c ∈ cs, c = '/' ∨ c = '\\') : hasDriveRoot cs = false := by
  match cs with
  | [] => rfl
  | [c0] => rfl
  | [c0, c1] => rfl
  | c0 :: c1 :: c2 :: rest =>
    rcases hall c0 (List.mem_cons_self _ _) with rfl | rfl
    · show (decide (('/').toNat < 0x80) && ('/').isAlpha
          && (c1 == ':') && (c2 == '\\' || c2 == '/')) = false
      rw [show ('/').isAlpha = false from by decide]
      simp
    · show (decide (('\\').toNat < 0x80) && ('\\').isAlpha
          && (c1 == ':') && (c2 == '\\' || c2 == '/')) = false
      rw [show ('\\').isAlpha = false from by decide]
      simp

theorem flatten_map_concat (sep : Char) :
    ∀ L : List (List Char), L ≠ [] →
      (L.map (fun s => s ++ [sep])).flatten = joinWith sep L ++ [sep]
  | [], h => absurd rfl h
  | [s], _ => by simp [joinWith]
  | s :: s2 :: rest, _ => by
    have ih := flatten_map_concat sep (s2 :: rest) (by simp)
    simp only [List.map_cons, List.flatten_cons] at ih ⊢
    rw [ih]
    simp [joinWith, List.append_assoc]

/-! ## Claim theorems -/

/-- C1.  The round-trip property fails in the code: `parse("/", POSIX)` is the
absolute value with zero segments, but serializing it yields `""` (the
unconditional `pop_back()` trims the root separator when no segment
separators were appended), and re-parsing `""` yields a *relative* value with
segment list `[""]`, which differs from the original. -/
theorem c1_roundtrip_failure :
    FilePath.set "/" Platform.UNIX =
      { path_ := [], is_absolute_ := true, platform_ := Platform.UNIX } ∧
    (FilePath.set "/" Platform.UNIX).to_str? Platform.UNIX = some "" ∧
    FilePath.set "" Platform.UNIX =
      { path_ := [""], is_absolute_ := false, platform_ := Platform.UNIX } ∧
    FilePath.set "" Platform.UNIX ≠ FilePath.set "/" Platform.UNIX := by
  refine ⟨by decide, by decide, by decide, by decide⟩

/-- C2.  Parsing the empty string does *not* yield an empty segment sequence:
the `split` helper pushes `origin.substr(0, npos)` (the empty string) for an
empty input, so `parse("", POSIX)` has segment list `[""]`, contradicting the
claimed `segments = []` (the `is_absolute = false` half does hold). -/
theorem c2_empty_parse_bug :
    FilePath.set "" Platform.UNIX =
      { path_ := [""], is_absolute_ := false, platform_ := Platform.UNIX } ∧
    (FilePath.set "" Platform.UNIX).path_ ≠ [] := by
  refine ⟨by decide, by decide⟩

/-- C3.  Serializing a value with zero segments and `is_absolute == false`
(the default-constructed `FilePath`) is *not* guarded: `to_str` calls
`result.pop_back()` on an empty `std::string`, which is undefined behaviour
(modelled as `none`), instead of returning `""` safely. -/
theorem c3_serialize_empty_underflow :
    FilePath.mkDefault.path_ = [] ∧
    FilePath.mkDefault.is_absolute_ = false ∧
    FilePath.mkDefault.to_str? Platform.NATIVE = none := by
  refine ⟨rfl, rfl, rfl⟩

/-- C4.  Drive-letter boundary: `parse("C:\Users\x", WINDOWS)` is absolute
with segments `["C:", "Users", "x"]`, while `parse("C:", WINDOWS)` lacks the
third separator character and is relative with segments `["C:"]`. -/
theorem c4_drive_letter_boundary :
    FilePath.set "C:\\Users\\x" Platform.WINDOWS =
      { path_ := ["C:", "Users", "x"], is_absolute_ := true,
        platform_ := Platform.WINDOWS } ∧
    FilePath.set "C:" Platform.WINDOWS =
      { path_ := ["C:"], is_absolute_ := false, platform_ := Platform.WINDOWS } := by
  refine ⟨by decide, by decide⟩

/-- C5.  Composition fails exactly when the addend is absolute or the two
operands' platforms differ: `operator/` produces an error if and only if
`addend.is_absolute_ = true` or `base.platform_ ≠ addend.platform_`. -/
theorem c5_compose_error_iff (base addend : FilePath) :
    (∃ msg, base.opDiv addend = Except.error msg) ↔
      (addend.is_absolute_ = true ∨ base.platform_ ≠ addend.platform_) := by
  by_cases h1 : addend.is_absolute_ = true
  · simp [FilePath.opDiv, h1]
  · by_cases h2 : base.platform_ = addend.platform_ <;>
      simp [FilePath.opDiv, h1, h2]

/-- C6.  Successful composition concatenates: for every base and every
relative addend of the same platform, `operator/` returns a value with the
base's platform, the base's absolute flag, and the concatenated segment
list. -/
theorem c6_compose_concat (base addend : FilePath)
    (h1 : addend.is_absolute_ = false)
    (h2 : base.platform_ = addend.platform_) :
    base.opDiv addend = Except.ok
      { path_ := base.path_ ++ addend.path_,
        is_absolute_ := base.is_absolute_, platform_ := base.platform_ } := by
  simp [FilePath.opDiv, h1, h2]

/-- Witness for C6 at `parse("a/b", POSIX) / parse("c", POSIX)`:
segments `["a", "b", "c"]`, relative. -/
theorem c6_compose_concat_witness :
    (FilePath.set "a/b" Platform.UNIX).opDiv (FilePath.set "c" Platform.UNIX) =
      Except.ok { path_ := ["a", "b", "c"], is_absolute_ := false,
                  platform_ := Platform.UNIX } := by
  have h := c6_compose_concat (FilePath.set "a/b" Platform.UNIX)
    (FilePath.set "c" Platform.UNIX) (by decide) (by decide)
  exact h.trans (by rfl)

/-- C7 counterexample: a WINDOWS string consisting solely of separators does
*not* parse as absolute — the drive-designator test fails, so
`parse("\", WINDOWS)` is relative. -/
theorem c7_all_separators_counterexample :
    (FilePath.set "\\" Platform.WINDOWS).is_absolute_ = false := by decide

/-- C7 (amended).  A non-empty string consisting solely of separator
characters parses to a value with zero segments; it is absolute for POSIX,
but *relative* for WINDOWS (the drive-designator test fails, and that is the
only way a WINDOWS parse marks a value absolute). -/
theorem c7_all_separators_amended :
    (∀ s : String, s.data ≠ [] → (∀ c ∈ s.data, c = '/') →
        FilePath.set s Platform.UNIX =
          { path_ := [], is_absolute_ := true, platform_ := Platform.UNIX }) ∧
    (∀ s : String, s.data ≠ [] → (∀ c ∈ s.data, c = '/' ∨ c = '\\') →
        FilePath.set s Platform.WINDOWS =
          { path_ := [], is_absolute_ := false, platform_ := Platform.WINDOWS }) := by
  constructor
  · intro s hne hall
    have hsplit : split s ['/'] = [] :=
      split_eq_nil_of_all_sep s ['/'] hne (fun c hc => by simp [hall c hc])
    obtain ⟨c, rest, hcons⟩ := List.exists_cons_of_ne_nil hne
    have hc : c = '/' := hall c (by rw [hcons]; exact List.mem_cons_self _ _)
    show FilePath.mk (split s ['/']) (firstIsSlash s.data) Platform.UNIX = _
    rw [hsplit, hcons, hc]
    rfl
  · intro s hne hall
    have hroot : hasDriveRoot s.data = false := hasDriveRoot_false_of_sep s.data hall
    have hsplit : split s ['/', '\\'] = [] :=
      split_eq_nil_of_all_sep s ['/', '\\'] hne
        (fun c hc => by rcases hall c hc with rfl | rfl <;> simp)
    show (if hasDriveRoot s.data then _ else _) = _
    rw [hroot]
    simp only [Bool.false_eq_true, if_false]
    rw [hsplit]

/-- Witness for C7 (amended) at `"//"` (POSIX) and `"/\"` (WINDOWS). -/
theorem c7_all_separators_amended_witness :
    FilePath.set "//" Platform.UNIX =
      { path_ := [], is_absolute_ := true, platform_ := Platform.UNIX } ∧
    FilePath.set "/\\" Platform.WINDOWS =
      { path_ := [], is_absolute_ := false, platform_ := Platform.WINDOWS } :=
  ⟨c7_all_separators_amended.1 "//" (by decide) (by decide),
   c7_all_separators_amended.2 "/\\" (by decide) (by decide)⟩

/-- C8.  `parent_path` on a relative value with at least one segment: when
the last segment is `"."` or `".."` a `".."` segment is appended, otherwise
the last segment is removed; in particular a trailing `".."` gets another
`".."` appended. -/
theorem c8_parent_path_relative (p : FilePath)
    (habs : p.is_absolute_ = false) (hne : p.path_ ≠ []) :
    ((p.path_.getLast? = some "." ∨ p.path_.getLast? = some "..") →
        p.parent_path? =
          some (FilePath.mk (p.path_ ++ [".."]) p.is_absolute_ p.platform_)) ∧
    (p.path_.getLast? ≠ some "." → p.path_.getLast? ≠ some ".." →
        p.parent_path? =
          some (FilePath.mk p.path_.dropLast p.is_absolute_ p.platform_)) := by
  constructor
  · intro h
    rcases h with h1 | h1 <;> simp [FilePath.parent_path?, habs, h1]
  · intro h1 h2
    simp [FilePath.parent_path?, habs, hne, h1, h2]

/-- Witness for C8 at the relative value `["a", ".."]`: the trailing `".."`
causes another `".."` to be appended. -/
theorem c8_parent_path_relative_witness :
    FilePath.parent_path?
        { path_ := ["a", ".."], is_absolute_ := false, platform_ := Platform.UNIX } =
      some { path_ := ["a", "..", ".."], is_absolute_ := false,
             platform_ := Platform.UNIX } := by
  have h := c8_parent_path_relative
    { path_ := ["a", ".."], is_absolute_ := false, platform_ := Platform.UNIX }
    rfl (by decide)
  exact (h.1 (Or.inr (by decide))).trans (by rfl)

/-- C9 counterexample.  Two concrete failures of the claim as stated.
First, a POSIX absolute value serialized with target WINDOWS is prefixed
with `'/'` (the value's own convention), not with the target separator
`'\'` — the code writes the literal `"/"` whenever the value is absolute
and its own platform is UNIX, ignoring the target.  Second, for a POSIX
absolute value with zero segments the claimed single leading separator is
absent altogether: the unconditional trailing trim consumes the prefix and
the result is `""`. -/
theorem c9_target_prefix_counterexample :
    (FilePath.to_str?
        { path_ := ["a"], is_absolute_ := true, platform_ := Platform.UNIX }
        Platform.WINDOWS = some "/a" ∧
      ("/a" : String) ≠ "\\a") ∧
    (FilePath.to_str?
        { path_ := [], is_absolute_ := true, platform_ := Platform.UNIX }
        Platform.UNIX = some "" ∧
      ("" : String) ≠ "/") := by
  refine ⟨⟨by decide, by decide⟩, ⟨by decide, by decide⟩⟩

/-- C9 (amended), covering every value.  Serialization joins the segments
with the *target* platform's separator, and writes a single `'/'` lead-in
exactly when the value is absolute and its own platform is POSIX — the
lead-in does not depend on the target platform.  When the value has at
least one segment the result is the lead-in followed by the joined
segments; when it has zero segments the unconditional trailing trim
consumes whatever was written: an absolute POSIX value serializes to `""`,
and any other zero-segment value (no lead-in) underflows the serializer
(undefined behaviour, `none`). -/
theorem c9_serializer_shape (p : FilePath) (target : Platform) :
    (p.path_ ≠ [] →
        p.to_str? target = some (String.mk
          ((if p.is_absolute_ = true ∧ p.platform_ = Platform.UNIX then ['/'] else []) ++
            joinWith (sepChar target) (p.path_.map String.data)))) ∧
    (p.path_ = [] → p.is_absolute_ = true → p.platform_ = Platform.UNIX →
        p.to_str? target = some "") ∧
    (p.path_ = [] → ¬(p.is_absolute_ = true ∧ p.platform_ = Platform.UNIX) →
        p.to_str? target = none) := by
  have hpfx : p.absPfx =
      (if p.is_absolute_ = true ∧ p.platform_ = Platform.UNIX then ['/'] else []) := by
    unfold FilePath.absPfx
    by_cases h1 : p.is_absolute_ = true
    · by_cases h2 : p.platform_ = Platform.UNIX <;> simp [h1, h2]
    · simp [h1, Bool.of_not_eq_true h1]
  refine ⟨fun hne => ?_, fun h1 h2 h3 => ?_, fun h1 h2 => ?_⟩
  · have hmapne : p.path_.map String.data ≠ [] := by
      simpa using hne
    have hflat : ((p.path_.map String.data).map (fun s => s ++ [sepChar target])).flatten
        = joinWith (sepChar target) (p.path_.map String.data) ++ [sepChar target] :=
      flatten_map_concat (sepChar target) (p.path_.map String.data) hmapne
    have hmapmap : p.path_.map (fun seg => seg.data ++ [sepChar target])
        = (p.path_.map String.data).map (fun s => s ++ [sepChar target]) := by
      rw [List.map_map]
      rfl
    show (if _ = ([] : List Char) then _ else _) = _
    rw [hmapmap, hflat, hpfx]
    rw [← List.append_assoc]
    rw [if_neg (List.append_ne_nil_of_right_ne_nil _ (by simp))]
    rw [List.dropLast_concat]
  · have hp : p.absPfx = ['/'] := by rw [hpfx, if_pos ⟨h2, h3⟩]
    show (if _ = ([] : List Char) then _ else _) = _
    rw [h1, hp]
    rfl
  · have hp : p.absPfx = [] := by rw [hpfx, if_neg h2]
    show (if _ = ([] : List Char) then _ else _) = _
    rw [h1, hp]
    rfl

/-- Witness for C9 (amended), exercising all three branches: the POSIX
absolute value `["a", "b"]` serialized with target WINDOWS is `"/a\b"`
(`'/'` lead-in, `'\'` joins); the zero-segment POSIX absolute value
serializes to `""`; the zero-segment relative value underflows. -/
theorem c9_serializer_shape_witness :
    FilePath.to_str?
        { path_ := ["a", "b"], is_absolute_ := true, platform_ := Platform.UNIX }
        Platform.WINDOWS = some "/a\\b" ∧
    FilePath.to_str?
        { path_ := [], is_absolute_ := true, platform_ := Platform.UNIX }
        Platform.WINDOWS = some "" ∧
    FilePath.to_str?
        { path_ := [], is_absolute_ := false, platform_ := Platform.UNIX }
        Platform.WINDOWS = none := by
  refine ⟨?_, ?_, ?_⟩
  · have h := (c9_serializer_shape
      { path_ := ["a", "b"], is_absolute_ := true, platform_ := Platform.UNIX }
      Platform.WINDOWS).1 (by decide)
    exact h.trans (by rfl)
  · exact (c9_serializer_shape
      { path_ := [], is_absolute_ := true, platform_ := Platform.UNIX }
      Platform.WINDOWS).2.1 rfl rfl rfl
  · exact (c9_serializer_shape
      { path_ := [], is_absolute_ := false, platform_ := Platform.UNIX }
      Platform.WINDOWS).2.2 rfl (by decide)

/-- C10.  `parent_path` on a relative value with an empty segment sequence
(for any platform, in particular the default-constructed value) succeeds and
takes the append branch, producing exactly `[".."]`. -/
theorem c10_parent_path_empty :
    (∀ pf : Platform,
        FilePath.parent_path? { path_ := [], is_absolute_ := false, platform_ := pf } =
          some { path_ := [".."], is_absolute_ := false, platform_ := pf }) ∧
    FilePath.mkDefault.parent_path? =
      some { FilePath.mkDefault with path_ := [".."] } := by
  refine ⟨fun pf => ?_, ?_⟩ <;> simp [FilePath.parent_path?, FilePath.mkDefault]

end FilePathSpec
